import Mathlib

/-!
Verification development for the geods-poi-api repository.

The embedding models `internal/refdata.go`: the bbox parser (`parseBBox`),
the category filter compiler (`parseCategories`), the per-row category
tagger and match test (`hasCategoryMatch`), the GeoPackage geometry
decoder (`wkbPointToWKT`, on top of a model of the external go-geom
`wkb.Unmarshal` / `wkt.Marshal` library contract), and the `Search`
handler pipeline as a pure function over a list of database rows.

Numeric conventions: Go `float64` query coordinates are modelled as exact
scaled decimals (`GoFloat`, with a rational valuation); the IEEE-754 doubles stored inside a geometry blob are
modelled by their 64-bit patterns (a `Nat` below `2 ^ 64`), assembled
byte by byte exactly as the binary decoder does.
-/

deriving instance DecidableEq for Except

/-- Character class of Go `unicode.IsSpace` restricted to ASCII: space, tab,
newline, vertical tab, form feed, carriage return. -/
def isSpaceChar (c : Char) : Bool :=
  c.toNat = 32 || (9 ≤ c.toNat && c.toNat ≤ 13)

/-- Models Go `strings.TrimSpace` (ASCII subset): drops whitespace from both
ends of the string. -/
def goTrim (s : String) : String :=
  String.mk (((s.data.dropWhile isSpaceChar).reverse.dropWhile isSpaceChar).reverse)

/-- Splitter on a single separator character, accumulating the current field
in reverse; structurally recursive so that proofs and the kernel can unfold it. -/
def splitFields (sep : Char) : List Char → List Char → List (List Char)
  | [], acc => [acc.reverse]
  | c :: cs, acc =>
    if c = sep then acc.reverse :: splitFields sep cs []
    else splitFields sep cs (c :: acc)

/-- Models Go `strings.Split`/`strings.SplitSeq` with a one-character
separator: the empty string yields one empty field, adjacent separators
yield empty fields. -/
def goSplit (s : String) (sep : Char) : List String :=
  (splitFields sep s.data []).map String.mk

/-- Models Go `unicode`/`strings.ToLower` on a single character, restricted to
the ASCII range that all data in this development lives in: an ASCII capital
letter is shifted down by 32, every other character is unchanged. -/
def charToLower (c : Char) : Char :=
  if 65 ≤ c.toNat ∧ c.toNat ≤ 90 then Char.ofNat (c.toNat + 32) else c

/-- Models Go `strings.ToLower` (ASCII subset): lower-cases each character. -/
def goToLower (s : String) : String :=
  String.mk (s.data.map charToLower)

/-- Decimal digits to a natural number, most significant first. -/
def digitsVal (l : List Char) : Nat :=
  l.foldl (fun a c => 10 * a + (c.toNat - 48)) 0

/-- Powers of ten over the integers, structurally recursive so the kernel can
evaluate them. -/
def tenPow : Nat → Int
  | 0 => 1
  | n + 1 => 10 * tenPow n

/-- Exact value of a float64 query coordinate, kept as an unnormalized scaled
decimal `mant / 10 ^ exp10`. Every coordinate in this development originates
from a decimal string, so the exact-decimal value model is faithful; the final
rounding Go performs to the nearest float64 is outside the model. -/
structure GoFloat where
  mant : Int
  exp10 : Nat
deriving DecidableEq, Repr

/-- Rational value denoted by a `GoFloat`. -/
def GoFloat.val (x : GoFloat) : ℚ :=
  (x.mant : ℚ) / ((tenPow x.exp10 : Int) : ℚ)

/-- Comparison of two `GoFloat`s by cross-multiplication (the denominators
are positive), matching `≤` on the denoted values. -/
def GoFloat.ble (a b : GoFloat) : Bool :=
  decide (a.mant * tenPow b.exp10 ≤ b.mant * tenPow a.exp10)

/-- Consumes an optional leading sign; returns (isNegative, rest). -/
def parseSign : List Char → Bool × List Char
  | '-' :: r => (true, r)
  | '+' :: r => (false, r)
  | l => (false, l)

/-- Models Go `strconv.ParseFloat` on plain decimal notation (optional sign,
integer digits, optional fractional digits, optional `e`/`E` exponent), the
values the modelled coordinates are drawn from, returning the exact rational
value. Go's additional forms (hex floats, `Inf`, `NaN`, digit underscores)
and the final rounding to float64 are outside the model. -/
def goParseFloat (s : String) : Option GoFloat :=
  let (neg, r1) := parseSign s.data
  let (ip, r2) := List.span Char.isDigit r1
  let (fp, r3) : List Char × List Char :=
    match r2 with
    | '.' :: rest => List.span Char.isDigit rest
    | _ => ([], r2)
  if ip.isEmpty && fp.isEmpty then none
  else
    let m : Int := digitsVal (ip ++ fp)
    let sm : Int := if neg then -m else m
    match r3 with
    | [] => some ⟨sm, fp.length⟩
    | c :: rest =>
      if c = 'e' ∨ c = 'E' then
        let (eneg, r4) := parseSign rest
        let (ed, r5) := List.span Char.isDigit r4
        if ed.isEmpty || !r5.isEmpty then none
        else if eneg then some ⟨sm, fp.length + digitsVal ed⟩
        else some ⟨sm * tenPow (digitsVal ed), fp.length⟩
      else none

/-- Bounding-box slice indices, as in the source (`LEFT = iota; BOTTOM; RIGHT; TOP`). -/
def LEFT : Nat := 0

/-- Index of the bottom (minimum latitude) bound. -/
def BOTTOM : Nat := 1

/-- Index of the right (maximum longitude) bound. -/
def RIGHT : Nat := 2

/-- Index of the top (maximum latitude) bound. -/
def TOP : Nat := 3

/-- Loop body of `parseBBox`: parses each comma-separated part in order,
stopping with a ValidationError naming the (untrimmed) offending part at the
first parse failure, exactly as the indexed loop in the source does. -/
def parseBBoxLoop : List String → Except String (List GoFloat)
  | [] => .ok []
  | part :: rest =>
    match goParseFloat (goTrim part) with
    | none => .error ("invalid bbox value '" ++ part ++ "': not a valid float")
    | some v =>
      match parseBBoxLoop rest with
      | .error e => .error e
      | .ok vs => .ok (v :: vs)

/-- Models `parseBBox` (refdata.go): split on commas, require exactly four
parts, trim and float-parse each part. -/
def parseBBox (s : String) : Except String (List GoFloat) :=
  let parts := goSplit s ','
  if parts.length ≠ 4 then .error "bbox must have 4 comma-separated values"
  else parseBBoxLoop parts

/-- Set-insert into the model of a Go `map[string]struct\x7b\x7d` used as a set:
the key list stays duplicate-free, and inserting an existing key is a no-op
(duplicates collapse silently). Only membership is ever observed. -/
def setInsert (k : String) (m : List String) : List String :=
  if k ∈ m then m else m ++ [k]

/-- Loop body of `parseCategories`: trims each comma-separated token, rejects
an empty token, lower-cases and inserts the rest into the set. -/
def parseCategoriesLoop : List String → List String → Except String (List String)
  | [], acc => .ok acc
  | t :: ts, acc =>
    let c := goTrim t
    if c = "" then .error "category cannot be an empty string"
    else parseCategoriesLoop ts (setInsert (goToLower c) acc)

/-- Models `parseCategories` (refdata.go): the empty string compiles to the
match-all filter (the Go nil map, modelled as the empty set — a non-empty
input always yields at least one token, so emptiness characterises
match-all); otherwise split on commas and run the loop. -/
def parseCategories (s : String) : Except String (List String) :=
  if s = "" then .ok [] else parseCategoriesLoop (goSplit s ',') []

/-- Models `hasCategoryMatch` (refdata.go): true iff some item is literally a
member of the compiled category set (exact, case-sensitive lookup). -/
def hasCategoryMatch (items : List String) (categories : List String) : Bool :=
  items.any (fun item => decide (item ∈ categories))

/-- Models the category-tag assembly in `Search` (refdata.go lines 215-223):
the primary category first when non-null, then each alternate token obtained
by splitting the alternate string on a pipe and trimming, empty tokens kept. -/
def buildTags (mainCategory alternateCategory : Option String) : List String :=
  (match mainCategory with
   | some m => [m]
   | none => []) ++
  (match alternateCategory with
   | some a => (goSplit a '|').map goTrim
   | none => [])

/-- Geometry values produced by the model of the external go-geom
`wkb.Unmarshal` library: the two-dimensional core of the standard WKB
encoding (type codes 1 through 7). Coordinates are kept as the raw 64-bit
IEEE-754 patterns read from the payload. -/
inductive GoGeom where
  | point (x y : Nat)
  | lineString (ps : List (Nat × Nat))
  | polygon (rs : List (List (Nat × Nat)))
  | multiPoint (ps : List (Nat × Nat))
  | multiLineString (ls : List (List (Nat × Nat)))
  | multiPolygon (ps : List (List (List (Nat × Nat))))
  | collection (gs : List GoGeom)

/-- Name of the concrete Go type backing a decoded geometry, as Go's `%T`
formatting verb prints it in the not-a-Point error message. -/
def kindName : GoGeom → String
  | .point _ _ => "*geom.Point"
  | .lineString _ => "*geom.LineString"
  | .polygon _ => "*geom.Polygon"
  | .multiPoint _ => "*geom.MultiPoint"
  | .multiLineString _ => "*geom.MultiLineString"
  | .multiPolygon _ => "*geom.MultiPolygon"
  | .collection _ => "*geom.GeometryCollection"

/-- Failure modes of the modelled WKB unmarshaller. -/
inductive WKBErr where
  | shortData
  | badByteOrder (b : Nat)
  | unknownType (t : Nat)
  | elementTypeMismatch
deriving DecidableEq, Repr

/-- Human-readable text of a WKB unmarshalling failure (the library's own
message wording is not observable from the spec; only the wrapping prefix
added by `wkbPointToWKT` is specified). -/
def WKBErr.message : WKBErr → String
  | .shortData => "unexpected EOF"
  | .badByteOrder b => "invalid byte order " ++ toString b
  | .unknownType t => "unknown type " ++ toString t
  | .elementTypeMismatch => "unexpected geometry element type"

/-- Assembles a little-endian byte list into a natural number (first byte
least significant). -/
def assembleLE : List Nat → Nat
  | [] => 0
  | b :: r => b + 256 * assembleLE r

/-- Reads a 4-byte unsigned integer in the selected byte order. -/
def readU32 (le : Bool) : List Nat → Option (Nat × List Nat)
  | b0 :: b1 :: b2 :: b3 :: r =>
    some (if le then assembleLE [b0, b1, b2, b3] else assembleLE [b3, b2, b1, b0], r)
  | _ => none

/-- Reads the 8-byte bit pattern of a float64 in the selected byte order. -/
def readF64 (le : Bool) : List Nat → Option (Nat × List Nat)
  | b0 :: b1 :: b2 :: b3 :: b4 :: b5 :: b6 :: b7 :: r =>
    some (if le then assembleLE [b0, b1, b2, b3, b4, b5, b6, b7]
          else assembleLE [b7, b6, b5, b4, b3, b2, b1, b0], r)
  | _ => none

/-- Reads `n` coordinate pairs (2 × 8 bytes each). -/
def readPoints (le : Bool) : Nat → List Nat → Option (List (Nat × Nat) × List Nat)
  | 0, bs => some ([], bs)
  | n + 1, bs =>
    match readF64 le bs with
    | none => none
    | some (x, r1) =>
      match readF64 le r1 with
      | none => none
      | some (y, r2) =>
        match readPoints le n r2 with
        | none => none
        | some (ps, r3) => some ((x, y) :: ps, r3)

/-- Reads `n` linear rings, each a 4-byte count followed by that many
coordinate pairs. -/
def readRings (le : Bool) : Nat → List Nat → Option (List (List (Nat × Nat)) × List Nat)
  | 0, bs => some ([], bs)
  | n + 1, bs =>
    match readU32 le bs with
    | none => none
    | some (k, r1) =>
      match readPoints le k r1 with
      | none => none
      | some (ps, r2) =>
        match readRings le n r2 with
        | none => none
        | some (rs, r3) => some (ps :: rs, r3)

/-- Runs a nested-geometry parser `n` times, threading the remaining bytes.
Taking the element parser as an argument keeps `parseGeom` structurally
recursive on its fuel, so the kernel can evaluate it. -/
def parseManyAux (p : List Nat → Except WKBErr (GoGeom × List Nat)) :
    Nat → List Nat → Except WKBErr (List GoGeom × List Nat)
  | 0, bs => .ok ([], bs)
  | n + 1, bs =>
    match p bs with
    | .error e => .error e
    | .ok (g, r1) =>
      match parseManyAux p n r1 with
      | .error e => .error e
      | .ok (gs, r2) => .ok (g :: gs, r2)

/-- Requires every parsed element of a MultiPoint to be a point. -/
def extractPoints : List GoGeom → Option (List (Nat × Nat))
  | [] => some []
  | .point x y :: gs =>
    match extractPoints gs with
    | none => none
    | some ps => some ((x, y) :: ps)
  | _ => none

/-- Requires every parsed element of a MultiLineString to be a line string. -/
def extractLineStrings : List GoGeom → Option (List (List (Nat × Nat)))
  | [] => some []
  | .lineString ps :: gs =>
    match extractLineStrings gs with
    | none => none
    | some ls => some (ps :: ls)
  | _ => none

/-- Requires every parsed element of a MultiPolygon to be a polygon. -/
def extractPolygons : List GoGeom → Option (List (List (List (Nat × Nat))))
  | [] => some []
  | .polygon rs :: gs =>
    match extractPolygons gs with
    | none => none
    | some ps => some (rs :: ps)
  | _ => none

/-- Modelled from the spec: the "standard binary point-geometry payload"
parser of the external go-geom `wkb.Unmarshal` library (its source is not
part of this repository) — one byte-order byte (0 big-endian, 1
little-endian), a 4-byte geometry type code, then the body of the geometry.
Nested geometries of a collection recurse through the fuel, which the
caller sets above the byte count so it can never run out (each nested
geometry consumes at least five bytes). Returns the unconsumed bytes. -/
def parseGeom : Nat → List Nat → Except WKBErr (GoGeom × List Nat)
  | 0, _ => .error .shortData
  | fuel + 1, bs =>
    match bs with
    | [] => .error .shortData
    | b :: r0 =>
      if b = 0 ∨ b = 1 then
        let le := b == 1
        match readU32 le r0 with
        | none => .error .shortData
        | some (t, r1) =>
          match t with
          | 1 =>
            match readF64 le r1 with
            | none => .error .shortData
            | some (x, r2) =>
              match readF64 le r2 with
              | none => .error .shortData
              | some (y, r3) => .ok (.point x y, r3)
          | 2 =>
            match readU32 le r1 with
            | none => .error .shortData
            | some (n, r2) =>
              match readPoints le n r2 with
              | none => .error .shortData
              | some (ps, r3) => .ok (.lineString ps, r3)
          | 3 =>
            match readU32 le r1 with
            | none => .error .shortData
            | some (n, r2) =>
              match readRings le n r2 with
              | none => .error .shortData
              | some (rs, r3) => .ok (.polygon rs, r3)
          | 4 =>
            match readU32 le r1 with
            | none => .error .shortData
            | some (n, r2) =>
              match parseManyAux (parseGeom fuel) n r2 with
              | .error e => .error e
              | .ok (gs, r3) =>
                match extractPoints gs with
                | none => .error .elementTypeMismatch
                | some ps => .ok (.multiPoint ps, r3)
          | 5 =>
            match readU32 le r1 with
            | none => .error .shortData
            | some (n, r2) =>
              match parseManyAux (parseGeom fuel) n r2 with
              | .error e => .error e
              | .ok (gs, r3) =>
                match extractLineStrings gs with
                | none => .error .elementTypeMismatch
                | some ls => .ok (.multiLineString ls, r3)
          | 6 =>
            match readU32 le r1 with
            | none => .error .shortData
            | some (n, r2) =>
              match parseManyAux (parseGeom fuel) n r2 with
              | .error e => .error e
              | .ok (gs, r3) =>
                match extractPolygons gs with
                | none => .error .elementTypeMismatch
                | some ps => .ok (.multiPolygon ps, r3)
          | 7 =>
            match readU32 le r1 with
            | none => .error .shortData
            | some (n, r2) =>
              match parseManyAux (parseGeom fuel) n r2 with
              | .error e => .error e
              | .ok (gs, r3) => .ok (.collection gs, r3)
          | _ => .error (.unknownType t)
      else .error (.badByteOrder b)

/-- Models the external `wkb.Unmarshal` entry point: parses one geometry
from the byte slice. Bytes left over after the geometry are not observable
through `wkbPointToWKT` and are ignored here. -/
def wkbUnmarshal (bs : List Nat) : Except WKBErr GoGeom :=
  match parseGeom (bs.length + 1) bs with
  | .error e => .error e
  | .ok (g, _) => .ok g

/-- Drops trailing '0' characters. -/
def stripZeros (l : List Char) : List Char :=
  (l.reverse.dropWhile (fun c => c = '0')).reverse

/-- Fractional digits of `fpart / 10 ^ q`: left-padded with zeros to `q`
digits, trailing zeros stripped. -/
def fracStr (fpart q : Nat) : String :=
  let ds := toString fpart
  String.mk (stripZeros (List.replicate (q - ds.length) '0' ++ ds.data))

/-- Modelled from the spec: the "canonical textual coordinate
representation" the external wkt library gives a float64 coordinate (its
source is not part of this repository). The 64-bit pattern is split into
sign, exponent and mantissa and the denoted value is rendered exactly: a
finite double is `m * 2 ^ p`, so its decimal expansion terminates. Go's
shortest-round-trip formatting prints the same digits whenever the double
is exactly a short decimal, which covers every coordinate in this
development. -/
def formatF64 (bits : Nat) : String :=
  let s := bits / 2 ^ 63 % 2
  let e := bits / 2 ^ 52 % 2 ^ 11
  let f := bits % 2 ^ 52
  if e = 2047 then
    if f = 0 then (if s = 1 then "-Inf" else "+Inf") else "NaN"
  else
    let n := if e = 0 then f else 2 ^ 52 + f
    let ee := if e = 0 then 1 else e
    let sign := if s = 1 then "-" else ""
    if n = 0 then sign ++ "0"
    else if 1075 ≤ ee then sign ++ toString (n * 2 ^ (ee - 1075))
    else
      let q := 1075 - ee
      let num := n * 5 ^ q
      let ipart := num / 10 ^ q
      let fpart := num % 10 ^ q
      if fpart = 0 then sign ++ toString ipart
      else sign ++ toString ipart ++ "." ++ fracStr fpart q

/-- Modelled from the spec: the external wkt library's serialization of a
decoded point, "POINT(longitude latitude)" — longitude first. For a point
this serialization is total, so the error branch the source keeps after
`wkt.Marshal` is dead code for the values that reach it. -/
def wktMarshalPoint (x y : Nat) : String :=
  "POINT(" ++ formatF64 x ++ " " ++ formatF64 y ++ ")"

/-- Models `wkbPointToWKT` (refdata.go): reject blobs shorter than 8 bytes,
skip the fixed 8-byte GeoPackage header, unmarshal the remaining bytes as
WKB, insist on a point, and serialize it. -/
def wkbPointToWKT (geomBytes : List Nat) : Except String String :=
  if geomBytes.length < 8 then
    .error "input byte slice is too short to contain a GeoPackage header and WKB data"
  else
    match wkbUnmarshal (geomBytes.drop 8) with
    | .error e => .error ("error unmarshaling WKB: " ++ e.message)
    | .ok (.point x y) => .ok (wktMarshalPoint x y)
    | .ok g => .error ("decoded geometry is not a Point, but a " ++ kindName g)

/-- Little-endian byte decomposition of a 64-bit pattern. -/
def f64BytesLE (n : Nat) : List Nat :=
  [n % 256, n / 256 % 256, n / 256 ^ 2 % 256, n / 256 ^ 3 % 256,
   n / 256 ^ 4 % 256, n / 256 ^ 5 % 256, n / 256 ^ 6 % 256, n / 256 ^ 7 % 256]

/-- Little-endian byte decomposition of a 32-bit value. -/
def u32BytesLE (n : Nat) : List Nat :=
  [n % 256, n / 256 % 256, n / 256 ^ 2 % 256, n / 256 ^ 3 % 256]

/-- Well-formed WKB encoding of the point (lon, lat) in either byte order
(true = little-endian), the encoding `wkbPointToWKT` is specified to
round-trip. -/
def wkbEncodePoint (le : Bool) (lon lat : Nat) : List Nat :=
  if le then 1 :: (u32BytesLE 1 ++ (f64BytesLE lon ++ f64BytesLE lat))
  else 0 :: ((u32BytesLE 1).reverse ++ ((f64BytesLE lon).reverse ++ (f64BytesLE lat).reverse))

/-- A row of the `poi_uk` table as the `Search` query scans it: the geometry
blob plus the scalar attribute columns, nullable columns as options.
Latitude/longitude (and easting/northing) are float64 columns, modelled as
exact decimals. -/
structure Row where
  fid : Int
  geom : List Nat
  id : String
  primaryName : Option String
  mainCategory : Option String
  alternateCategory : Option String
  address : Option String
  locality : Option String
  postcode : Option String
  region : Option String
  country : Option String
  source : String
  sourceRecordId : String
  lat : GoFloat
  long : GoFloat
  h3_15 : String
  easting : GoFloat
  northing : GoFloat
  lsoa21cd : String
deriving DecidableEq, Repr

/-- The output entity assembled by `Search` (the `POI` struct of
refdata.go): the row's scalar attributes, the decoded textual geometry, and
the ordered category tag list. -/
structure POI where
  fid : Int
  geom : String
  id : String
  primaryName : Option String
  categories : List String
  address : Option String
  locality : Option String
  postcode : Option String
  region : Option String
  country : Option String
  source : String
  sourceRecordId : String
  lat : GoFloat
  long : GoFloat
  h3_15 : String
  easting : GoFloat
  northing : GoFloat
  lsoa21cd : String
deriving DecidableEq, Repr

/-- Assembles the output entity for one row from the decoded geometry text
and the row's pass-through attributes, tagging it with `buildTags`. -/
def mkPOI (r : Row) (wktText : String) : POI :=
  ⟨r.fid, wktText, r.id, r.primaryName,
   buildTags r.mainCategory r.alternateCategory,
   r.address, r.locality, r.postcode, r.region, r.country,
   r.source, r.sourceRecordId, r.lat, r.long, r.h3_15,
   r.easting, r.northing, r.lsoa21cd⟩

/-- Predicate of the SQL push-down
`WHERE lat BETWEEN bottom AND top AND long BETWEEN left AND right`
(inclusive on both ends) that `Search` sends to the row source. -/
def rowInBBox (bbox : List GoFloat) (r : Row) : Bool :=
  let z : GoFloat := ⟨0, 0⟩
  GoFloat.ble (bbox.getD BOTTOM z) r.lat && GoFloat.ble r.lat (bbox.getD TOP z) &&
  GoFloat.ble (bbox.getD LEFT z) r.long && GoFloat.ble r.long (bbox.getD RIGHT z)

/-- Models the external row source answering the range query: the rows of
the table whose coordinates lie in the rectangle, in table order (the query
has no ORDER BY; the scan order of the source stands in as the table
order). Retrieval and scan failures of the real row source are outside the
model, which assumes a healthy source. -/
def dbQuery (table : List Row) (bbox : List GoFloat) : List Row :=
  table.filter (rowInBBox bbox)

/-- Outcome of one `Search` request: a 400-class outcome with the
validation message, an opaque 500-class outcome (the handler always sends
the generic internal-error body), or a 200-class outcome carrying the
`results` slice. -/
inductive SearchOutcome where
  | badRequest (message : String)
  | internalError
  | ok (results : Option (List POI))
deriving DecidableEq, Repr

/-- Models Go `append` on the `results` slice: appending to a nil slice
allocates, so the result of any append is non-nil. -/
def goAppend (s : Option (List POI)) (p : POI) : Option (List POI) :=
  some (s.getD [] ++ [p])

/-- The row loop of `Search` (refdata.go lines 197-228): per row, decode the
geometry — any decode failure aborts the whole request with the 500-class
outcome — build the tag list, and keep the row when no filter was supplied
or some tag is in the filter set. The `results` slice starts as the Go nil
slice (`none`). -/
def searchLoop (categories : List String) : List Row → Option (List POI) → SearchOutcome
  | [], results => .ok results
  | r :: rs, results =>
    match wkbPointToWKT r.geom with
    | .error _ => .internalError
    | .ok w =>
      if categories.isEmpty || hasCategoryMatch (buildTags r.mainCategory r.alternateCategory) categories then
        searchLoop categories rs (goAppend results (mkPOI r w))
      else searchLoop categories rs results

/-- Models the `Search` handler (refdata.go): validate bbox then categories
(either failure is a 400-class outcome before any row retrieval), run the
range query, then the row loop. -/
def search (table : List Row) (bboxStr categoriesStr : String) : SearchOutcome :=
  match parseBBox bboxStr with
  | .error e => .badRequest e
  | .ok bbox =>
    match parseCategories categoriesStr with
    | .error e => .badRequest e
    | .ok categories => searchLoop categories (dbQuery table bbox) none

/-- Models the encoding/json rendering of the `results` field of `Response`
(no `omitempty` on the field): Go marshals a nil slice as JSON `null` and a
non-nil slice as an array. The rendering of one POI object does not matter
to any claim and is a parameter. -/
def renderResults (renderItem : POI → String) : Option (List POI) → String
  | none => "null"
  | some l => "[" ++ String.intercalate "," (l.map renderItem) ++ "]"

/-- The serialized success-response body shape: the single `results` field. -/
def renderResponse (renderItem : POI → String) (results : Option (List POI)) : String :=
  "\x7b\"results\":" ++ renderResults renderItem results ++ "\x7d"

/-- The Go slice a result list is carried in: nil when nothing was ever
appended, non-nil otherwise. -/
def listToGoSlice (l : List POI) : Option (List POI) :=
  if l = [] then none else some l

/-- Membership after a set-insert: the old members plus the new key. -/
theorem mem_setInsert (x k : String) (m : List String) :
    x ∈ setInsert k m ↔ x ∈ m ∨ x = k := by
  unfold setInsert
  split
  · next h => constructor
              · exact Or.inl
              · rintro (hx | rfl)
                · exact hx
                · exact h
  · simp [List.mem_append]

/-- Set-inserts keep the key list duplicate-free. -/
theorem nodup_setInsert (k : String) (m : List String) (h : m.Nodup) :
    (setInsert k m).Nodup := by
  unfold setInsert
  split
  · exact h
  · next hk => simp [List.nodup_append, h, hk]

/-- Characterization of a successful run of the category loop: some set is
returned whose members are the accumulator's members plus the lower-cased
trimmed tokens, duplicate-free when the accumulator was. -/
theorem parseCategoriesLoop_ok (ts : List String) :
    ∀ acc : List String, (∀ t ∈ ts, goTrim t ≠ "") →
      ∃ cats, parseCategoriesLoop ts acc = .ok cats ∧
        (∀ x, x ∈ cats ↔ x ∈ acc ∨ ∃ t ∈ ts, x = goToLower (goTrim t)) ∧
        (acc.Nodup → cats.Nodup) := by
  induction ts with
  | nil =>
    intro acc _
    exact ⟨acc, rfl, by simp, id⟩
  | cons t ts ih =>
    intro acc h
    have ht : goTrim t ≠ "" := h t (List.mem_cons_self t ts)
    obtain ⟨cats, hrun, hmem, hnd⟩ :=
      ih (setInsert (goToLower (goTrim t)) acc) (fun u hu => h u (List.mem_cons_of_mem t hu))
    refine ⟨cats, ?_, ?_, ?_⟩
    · simpa [parseCategoriesLoop, ht] using hrun
    · intro x
      rw [hmem x, mem_setInsert]
      simp only [List.mem_cons]
      constructor
      · rintro ((hx | rfl) | ⟨u, hu, rfl⟩)
        · exact Or.inl hx
        · exact Or.inr ⟨t, Or.inl rfl, rfl⟩
        · exact Or.inr ⟨u, Or.inr hu, rfl⟩
      · rintro (hx | ⟨u, (rfl | hu), rfl⟩)
        · exact Or.inl (Or.inl hx)
        · exact Or.inl (Or.inr rfl)
        · exact Or.inr ⟨u, hu, rfl⟩
    · intro hacc
      exact hnd (nodup_setInsert _ _ hacc)

/-- An empty trimmed token anywhere makes the category loop fail with the
ValidationError of the source. -/
theorem parseCategoriesLoop_error (ts : List String) :
    ∀ acc : List String, (∃ t ∈ ts, goTrim t = "") →
      parseCategoriesLoop ts acc = .error "category cannot be an empty string" := by
  induction ts with
  | nil => rintro acc ⟨t, ht, -⟩; cases ht
  | cons t ts ih =>
    rintro acc ⟨u, hu, hue⟩
    by_cases ht : goTrim t = ""
    · simp [parseCategoriesLoop, ht]
    · rcases List.mem_cons.mp hu with rfl | hu'
      · exact absurd hue ht
      · simpa [parseCategoriesLoop, ht] using ih _ ⟨u, hu', hue⟩

/-- The field splitter never returns an empty field list. -/
theorem splitFields_ne_nil (sep : Char) (cs acc : List Char) :
    splitFields sep cs acc ≠ [] := by
  induction cs generalizing acc with
  | nil => simp [splitFields]
  | cons c cs ih =>
    unfold splitFields
    split
    · simp
    · exact ih (c :: acc)

/-- Splitting any string yields at least one token. -/
theorem goSplit_ne_nil (s : String) (sep : Char) : goSplit s sep ≠ [] := by
  unfold goSplit
  simp [splitFields_ne_nil]

/-- True when the string holds at least one ASCII capital letter. -/
def containsUpper (s : String) : Bool :=
  s.data.any (fun c => 65 ≤ c.toNat && c.toNat ≤ 90)

/-- Lower-casing moves an ASCII capital letter out of the capital range. -/
theorem charToLower_toNat (c : Char) (h : 65 ≤ c.toNat ∧ c.toNat ≤ 90) :
    (charToLower c).toNat = c.toNat + 32 := by
  unfold charToLower
  rw [if_pos h]
  have hv : (c.toNat + 32).isValidChar := Or.inl (by omega)
  unfold Char.ofNat
  rw [dif_pos hv]
  rfl

/-- A lower-cased string holds no ASCII capital letter. -/
theorem containsUpper_goToLower (s : String) : containsUpper (goToLower s) = false := by
  unfold containsUpper goToLower
  show (s.data.map charToLower).any _ = false
  rw [List.any_map, List.any_eq_false]
  intro c _
  by_cases h : 65 ≤ c.toNat ∧ c.toNat ≤ 90
  · have h32 := charToLower_toNat c h
    simp only [Function.comp_apply, Bool.and_eq_true, decide_eq_true_eq, not_and]
    omega
  · simp only [Function.comp_apply, charToLower, if_neg h, Bool.and_eq_true,
      decide_eq_true_eq, not_and]
    omega

/-- Results can only contain POIs that passed the inclusion test of the row
loop (or were already in the accumulator). -/
theorem searchLoop_mem (cats : List String) (rows : List Row) :
    ∀ (acc res : Option (List POI)),
      searchLoop cats rows acc = .ok res →
      ∀ p ∈ res.getD [],
        p ∈ acc.getD [] ∨
          (cats.isEmpty || hasCategoryMatch p.categories cats) = true := by
  induction rows with
  | nil =>
    intro acc res h p hp
    cases h
    exact Or.inl hp
  | cons r rs ih =>
    intro acc res h p hp
    unfold searchLoop at h
    cases hw : wkbPointToWKT r.geom with
    | error e => rw [hw] at h; cases h
    | ok w =>
      rw [hw] at h
      cases hbool : (cats.isEmpty || hasCategoryMatch (buildTags r.mainCategory r.alternateCategory) cats) with
      | false =>
        rw [hbool] at h
        simp only [Bool.false_eq_true, if_false] at h
        exact ih _ _ h p hp
      | true =>
        rw [hbool] at h
        simp only [if_true] at h
        rcases ih _ _ h p hp with hin | hmatch
        · simp only [goAppend, Option.getD_some, List.mem_append, List.mem_singleton] at hin
          rcases hin with hin | rfl
          · exact Or.inl hin
          · exact Or.inr hbool
        · exact Or.inr hmatch

/-- C7: the category tagger emits the primary category first when present and
non-null, then each alternate token obtained by splitting on a pipe and
trimming, empty tokens kept as-is, in left-to-right order, with no case
normalization and no deduplication; two null inputs give the empty list.
The concrete cases exhibit the spec's example, the empty tokens, and the
absence of deduplication and of case normalization. -/
theorem C7_tagger_order_and_examples :
    (∀ m a, buildTags (some m) (some a) = m :: (goSplit a '|').map goTrim) ∧
    (∀ m, buildTags (some m) none = [m]) ∧
    (∀ a, buildTags none (some a) = (goSplit a '|').map goTrim) ∧
    buildTags none none = [] ∧
    buildTags (some "Cafe") (some "Bakery| Dessert Shop ") = ["Cafe", "Bakery", "Dessert Shop"] ∧
    buildTags (some "Cafe") (some "Bakery||Bakery") = ["Cafe", "Bakery", "", "Bakery"] :=
  ⟨fun _ _ => rfl, fun _ => rfl, fun _ => rfl, rfl, by decide, by decide⟩

/-- C8: the filter compiler maps the empty input to match-all (the empty
set, the model of the Go nil map); a non-empty input is split on commas,
each token trimmed, an empty trimmed token fails with the ValidationError,
and otherwise the compiled set holds exactly the lower-cased trimmed
tokens, duplicate-free. -/
theorem C8_filter_compiler_contract :
    parseCategories "" = .ok [] ∧
    (∀ s : String, s ≠ "" →
      ((∃ t ∈ goSplit s ',', goTrim t = "") →
          parseCategories s = .error "category cannot be an empty string") ∧
      ((∀ t ∈ goSplit s ',', goTrim t ≠ "") →
          ∃ cats, parseCategories s = .ok cats ∧ cats.Nodup ∧
            (∀ x, x ∈ cats ↔ ∃ t ∈ goSplit s ',', x = goToLower (goTrim t)))) ∧
    parseCategories "A, b ,C" = .ok ["a", "b", "c"] ∧
    parseCategories "a,,b" = .error "category cannot be an empty string" ∧
    parseCategories "a,A, a" = .ok ["a"] := by
  refine ⟨rfl, ?_, by decide, by decide, by decide⟩
  intro s hs
  constructor
  · intro hex
    unfold parseCategories
    rw [if_neg hs]
    exact parseCategoriesLoop_error _ _ hex
  · intro hall
    obtain ⟨cats, hrun, hmem, hnd⟩ := parseCategoriesLoop_ok _ [] hall
    refine ⟨cats, ?_, hnd (by simp), ?_⟩
    · unfold parseCategories
      rw [if_neg hs]
      exact hrun
    · intro x
      rw [hmem x]
      simp

/-- Witness for C8 at a concrete mixed-case input with duplicates. -/
theorem C8_filter_compiler_contract_witness :
    ∃ cats, parseCategories "A, b ,C" = .ok cats ∧ cats.Nodup ∧
      (∀ x, x ∈ cats ↔ ∃ t ∈ goSplit "A, b ,C" ',', x = goToLower (goTrim t)) :=
  (C8_filter_compiler_contract.2.1 "A, b ,C" (by decide)).2 (by decide)

/-- C9: the bbox parser maps "1,2,3,4" to the rectangle with left 1,
bottom 2, right 3, top 4 (the four values, in slice order, denoting the
rationals 1,2,3,4); any token count other than four fails with the
ValidationError; otherwise each token is trimmed and float-parsed, the
first failing token is named in the error, and a parse with four parseable
tokens always succeeds — no range or ordering validation at all. -/
theorem C9_parseBBox_contract :
    parseBBox "1,2,3,4" = .ok [⟨1, 0⟩, ⟨2, 0⟩, ⟨3, 0⟩, ⟨4, 0⟩] ∧
    ((⟨1, 0⟩ : GoFloat).val = 1 ∧ (⟨2, 0⟩ : GoFloat).val = 2 ∧
      (⟨3, 0⟩ : GoFloat).val = 3 ∧ (⟨4, 0⟩ : GoFloat).val = 4) ∧
    (∀ s : String, (goSplit s ',').length ≠ 4 →
      parseBBox s = .error "bbox must have 4 comma-separated values") ∧
    (∀ s t1 t2 t3 t4, goSplit s ',' = [t1, t2, t3, t4] →
      (∀ v1 v2 v3 v4, goParseFloat (goTrim t1) = some v1 → goParseFloat (goTrim t2) = some v2 →
        goParseFloat (goTrim t3) = some v3 → goParseFloat (goTrim t4) = some v4 →
        parseBBox s = .ok [v1, v2, v3, v4]) ∧
      (goParseFloat (goTrim t1) = none →
        parseBBox s = .error ("invalid bbox value '" ++ t1 ++ "': not a valid float")) ∧
      (∀ v1, goParseFloat (goTrim t1) = some v1 → goParseFloat (goTrim t2) = none →
        parseBBox s = .error ("invalid bbox value '" ++ t2 ++ "': not a valid float")) ∧
      (∀ v1 v2, goParseFloat (goTrim t1) = some v1 → goParseFloat (goTrim t2) = some v2 →
        goParseFloat (goTrim t3) = none →
        parseBBox s = .error ("invalid bbox value '" ++ t3 ++ "': not a valid float")) ∧
      (∀ v1 v2 v3, goParseFloat (goTrim t1) = some v1 → goParseFloat (goTrim t2) = some v2 →
        goParseFloat (goTrim t3) = some v3 → goParseFloat (goTrim t4) = none →
        parseBBox s = .error ("invalid bbox value '" ++ t4 ++ "': not a valid float"))) := by
  refine ⟨by decide, ⟨?_, ?_, ?_, ?_⟩, ?_, ?_⟩
  · norm_num [GoFloat.val, tenPow]
  · norm_num [GoFloat.val, tenPow]
  · norm_num [GoFloat.val, tenPow]
  · norm_num [GoFloat.val, tenPow]
  · intro s h
    unfold parseBBox
    rw [if_pos h]
  · intro s t1 t2 t3 t4 hsplit
    have hlen : ¬((goSplit s ',').length ≠ 4) := by rw [hsplit]; simp
    refine ⟨?_, ?_, ?_, ?_, ?_⟩
    · intro v1 v2 v3 v4 h1 h2 h3 h4
      unfold parseBBox
      rw [if_neg hlen, hsplit]
      simp [parseBBoxLoop, h1, h2, h3, h4]
    · intro h1
      unfold parseBBox
      rw [if_neg hlen, hsplit]
      simp [parseBBoxLoop, h1]
    · intro v1 h1 h2
      unfold parseBBox
      rw [if_neg hlen, hsplit]
      simp [parseBBoxLoop, h1, h2]
    · intro v1 v2 h1 h2 h3
      unfold parseBBox
      rw [if_neg hlen, hsplit]
      simp [parseBBoxLoop, h1, h2, h3]
    · intro v1 v2 v3 h1 h2 h3 h4
      unfold parseBBox
      rw [if_neg hlen, hsplit]
      simp [parseBBoxLoop, h1, h2, h3, h4]

/-- Witness for C9: the success row, a failure naming the bad token, and a
wrong token count. -/
theorem C9_parseBBox_contract_witness :
    parseBBox "1, 2,x,4" = .error ("invalid bbox value '" ++ "x" ++ "': not a valid float") ∧
    parseBBox "1,2,3" = .error "bbox must have 4 comma-separated values" :=
  ⟨(C9_parseBBox_contract.2.2.2 "1, 2,x,4" "1" " 2" "x" "4" (by decide)).2.2.2.1
      ⟨1, 0⟩ ⟨2, 0⟩ (by decide) (by decide) (by decide),
   C9_parseBBox_contract.2.2.1 "1,2,3" (by decide)⟩

/-- C10: the compiled filter matches a tag list exactly when some tag is
literally (no normalization) a member of the compiled, lower-cased set;
the filter set itself is non-empty (for non-empty valid input) and holds no
ASCII capital; hence the inclusion test of `Search` is false for a tag list
whose every tag contains an ASCII capital letter, so such a POI never
reaches the results when any filter is supplied. -/
theorem C10_case_sensitive_category_matching :
    ∀ (s : String) (cats : List String), s ≠ "" → parseCategories s = .ok cats →
      (∀ tags, hasCategoryMatch tags cats = true ↔ ∃ t ∈ tags, t ∈ cats) ∧
      cats ≠ [] ∧
      (∀ x ∈ cats, containsUpper x = false) ∧
      (∀ tags, (∀ t ∈ tags, containsUpper t = true) →
        (cats.isEmpty || hasCategoryMatch tags cats) = false) ∧
      (∀ (table : List Row) (bboxStr : String) (res : List POI),
        search table bboxStr s = .ok (some res) →
        ∀ p ∈ res, ¬∀ t ∈ p.categories, containsUpper t = true) := by
  intro s cats hs hok
  have hok0 := hok
  unfold parseCategories at hok
  rw [if_neg hs] at hok
  have hall : ∀ t ∈ goSplit s ',', goTrim t ≠ "" := by
    by_contra hnot
    push_neg at hnot
    obtain ⟨t, ht, hte⟩ := hnot
    rw [parseCategoriesLoop_error _ _ ⟨t, ht, hte⟩] at hok
    cases hok
  obtain ⟨cats', hrun, hmem, -⟩ := parseCategoriesLoop_ok _ [] hall
  rw [hrun] at hok
  injection hok with hok
  subst hok
  have hlower : ∀ x ∈ cats', containsUpper x = false := by
    intro x hx
    rcases (hmem x).1 hx with h0 | ⟨t, -, rfl⟩
    · cases h0
    · exact containsUpper_goToLower _
  have hne : cats' ≠ [] := by
    obtain ⟨t0, ts, hts⟩ := List.exists_cons_of_ne_nil (goSplit_ne_nil s ',')
    have h0 : goToLower (goTrim t0) ∈ cats' :=
      (hmem _).2 (Or.inr ⟨t0, by rw [hts]; exact List.mem_cons_self t0 ts, rfl⟩)
    intro hnil
    rw [hnil] at h0
    cases h0
  have hiff : ∀ tags, hasCategoryMatch tags cats' = true ↔ ∃ t ∈ tags, t ∈ cats' := by
    intro tags
    simp [hasCategoryMatch, List.any_eq_true]
  have hexcl : ∀ tags, (∀ t ∈ tags, containsUpper t = true) →
      (cats'.isEmpty || hasCategoryMatch tags cats') = false := by
    intro tags htags
    have h1 : cats'.isEmpty = false := by
      cases cats' with
      | nil => exact absurd rfl hne
      | cons a l => rfl
    rw [h1, Bool.false_or]
    rw [← Bool.not_eq_true, hiff tags]
    rintro ⟨t, ht, htc⟩
    have := htags t ht
    rw [hlower t htc] at this
    cases this
  refine ⟨hiff, hne, hlower, hexcl, ?_⟩
  intro table bboxStr res hsearch p hp hup
  unfold search at hsearch
  cases hbb : parseBBox bboxStr with
  | error e => rw [hbb] at hsearch; cases hsearch
  | ok bbox =>
    rw [hbb, hok0] at hsearch
    rcases searchLoop_mem _ _ _ _ hsearch p (by simpa using hp) with h0 | htest
    · cases h0
    · rw [hexcl _ hup] at htest
      cases htest

/-- Witness for C10: the filter "cafe" never matches the stored
capitalized tags. -/
theorem C10_case_sensitive_category_matching_witness :
    (["cafe"].isEmpty || hasCategoryMatch ["Cafe", "Bakery"] ["cafe"]) = false :=
  (C10_case_sensitive_category_matching "cafe" ["cafe"] (by decide) (by decide)).2.2.2.1
    ["Cafe", "Bakery"] (by decide)

/-- Little-endian byte decomposition feeds back through the float reader. -/
theorem readF64_encLE (n : Nat) (h : n < 2 ^ 64) (rest : List Nat) :
    readF64 true (f64BytesLE n ++ rest) = some (n, rest) := by
  simp only [f64BytesLE, List.cons_append, List.nil_append, readF64, if_true, assembleLE]
  norm_num
  omega

/-- Big-endian byte decomposition feeds back through the float reader. -/
theorem readF64_encBE (n : Nat) (h : n < 2 ^ 64) (rest : List Nat) :
    readF64 false ((f64BytesLE n).reverse ++ rest) = some (n, rest) := by
  simp only [f64BytesLE, List.reverse_cons, List.reverse_nil, List.nil_append,
    List.cons_append, List.append_assoc]
  simp only [readF64, Bool.false_eq_true, if_false, assembleLE]
  norm_num
  omega

/-- Variant of `readF64_encLE` with nothing following the eight bytes. -/
theorem readF64_encLE_nil (n : Nat) (h : n < 2 ^ 64) :
    readF64 true (f64BytesLE n) = some (n, []) := by
  have := readF64_encLE n h []
  simpa using this

/-- Variant of `readF64_encBE` with nothing following the eight bytes. -/
theorem readF64_encBE_nil (n : Nat) (h : n < 2 ^ 64) :
    readF64 false ((f64BytesLE n).reverse) = some (n, []) := by
  have := readF64_encBE n h []
  simpa using this

/-- The WKB parser recovers exactly the encoded coordinates of a point
payload, in either byte order, consuming the whole payload. -/
theorem parseGeom_encodePoint (le : Bool) (lon lat : Nat) (hlon : lon < 2 ^ 64) (hlat : lat < 2 ^ 64) :
    parseGeom 22 (wkbEncodePoint le lon lat) = .ok (.point lon lat, []) := by
  cases le
  · have e1 : wkbEncodePoint false lon lat =
        0 :: 0 :: 0 :: 0 :: 1 :: ((f64BytesLE lon).reverse ++ (f64BytesLE lat).reverse) := by
      norm_num [wkbEncodePoint, u32BytesLE]
    rw [e1]
    unfold parseGeom
    norm_num [readU32, assembleLE]
    rw [show ((0 : Nat) == 1) = false from rfl]
    rw [readF64_encBE lon hlon]
    simp [readF64_encBE_nil lat hlat]
  · have e1 : wkbEncodePoint true lon lat =
        1 :: 1 :: 0 :: 0 :: 0 :: (f64BytesLE lon ++ f64BytesLE lat) := by
      norm_num [wkbEncodePoint, u32BytesLE, f64BytesLE]
    rw [e1]
    unfold parseGeom
    norm_num [readU32, assembleLE]
    rw [readF64_encLE lon hlon]
    simp [readF64_encLE_nil lat hlat]

/-- C5: for every well-formed blob made of an 8-byte header followed by a
binary point-geometry payload encoding (lon, lat) — in either byte order —
the decoder succeeds and renders exactly the encoded coordinate pair as
"POINT(<lon> <lat>)", longitude first: the decode round-trip of the
encoding. -/
theorem C5_decoder_round_trip :
    ∀ (header : List Nat) (le : Bool) (lon lat : Nat),
      header.length = 8 → lon < 2 ^ 64 → lat < 2 ^ 64 →
      wkbPointToWKT (header ++ wkbEncodePoint le lon lat) =
        .ok ("POINT(" ++ formatF64 lon ++ " " ++ formatF64 lat ++ ")") := by
  intro header le lon lat hlen hlon hlat
  have henc : (wkbEncodePoint le lon lat).length = 21 := by
    cases le <;> simp [wkbEncodePoint, u32BytesLE, f64BytesLE]
  have hdrop : (header ++ wkbEncodePoint le lon lat).drop 8 = wkbEncodePoint le lon lat := by
    rw [← hlen]
    exact List.drop_left header _
  have hfull : (header ++ wkbEncodePoint le lon lat).length = 29 := by
    rw [List.length_append, hlen, henc]
  unfold wkbPointToWKT
  rw [if_neg (by rw [hfull]; omega)]
  rw [hdrop]
  unfold wkbUnmarshal
  rw [henc]
  rw [parseGeom_encodePoint le lon lat hlon hlat]
  rfl

/-- Witness for C5 at the doubles 1.0 and 2.0 under a GeoPackage-style
header. -/
theorem C5_decoder_round_trip_witness :
    wkbPointToWKT ([71, 80, 0, 0, 0, 0, 0, 0] ++
        wkbEncodePoint true 4607182418800017408 4611686018427387904) =
      .ok ("POINT(" ++ formatF64 4607182418800017408 ++ " " ++ formatF64 4611686018427387904 ++ ")") :=
  C5_decoder_round_trip [71, 80, 0, 0, 0, 0, 0, 0] true _ _ (by decide) (by decide) (by decide)

/-- The three DecodeError messages of `wkbPointToWKT` are pairwise distinct,
whatever the unmarshalling failure or the offending geometry kind. -/
theorem msg_distinct (e : WKBErr) (g : GoGeom) :
    "input byte slice is too short to contain a GeoPackage header and WKB data" ≠
        "error unmarshaling WKB: " ++ e.message ∧
    "input byte slice is too short to contain a GeoPackage header and WKB data" ≠
        "decoded geometry is not a Point, but a " ++ kindName g ∧
    "error unmarshaling WKB: " ++ e.message ≠
        "decoded geometry is not a Point, but a " ++ kindName g := by
  refine ⟨?_, ?_, ?_⟩ <;> intro h <;>
    (have hd := congrArg String.data h; simp [String.data_append] at hd)

/-- C6: the decoder fails with the too-short DecodeError on every blob of
fewer than 8 bytes; fails with the wrapped unmarshal DecodeError on every
blob whose post-header payload does not parse; fails with the distinct
DecodeError naming the actual geometry kind on every payload parsing to a
non-Point; succeeds on every payload parsing to a point — and the three
error messages are pairwise distinct. -/
theorem C6_decode_failure_classification :
    (∀ blob : List Nat, blob.length < 8 →
      wkbPointToWKT blob =
        .error "input byte slice is too short to contain a GeoPackage header and WKB data") ∧
    (∀ (blob : List Nat) (e : WKBErr), 8 ≤ blob.length →
      wkbUnmarshal (blob.drop 8) = .error e →
      wkbPointToWKT blob = .error ("error unmarshaling WKB: " ++ e.message)) ∧
    (∀ (blob : List Nat) (g : GoGeom), 8 ≤ blob.length →
      wkbUnmarshal (blob.drop 8) = .ok g → (∀ x y, g ≠ .point x y) →
      wkbPointToWKT blob = .error ("decoded geometry is not a Point, but a " ++ kindName g)) ∧
    (∀ (blob : List Nat) (x y : Nat), 8 ≤ blob.length →
      wkbUnmarshal (blob.drop 8) = .ok (.point x y) →
      wkbPointToWKT blob = .ok (wktMarshalPoint x y)) ∧
    (∀ (e : WKBErr) (g : GoGeom),
      "input byte slice is too short to contain a GeoPackage header and WKB data" ≠
          "error unmarshaling WKB: " ++ e.message ∧
      "input byte slice is too short to contain a GeoPackage header and WKB data" ≠
          "decoded geometry is not a Point, but a " ++ kindName g ∧
      "error unmarshaling WKB: " ++ e.message ≠
          "decoded geometry is not a Point, but a " ++ kindName g) := by
  refine ⟨?_, ?_, ?_, ?_, msg_distinct⟩
  · intro blob h
    unfold wkbPointToWKT
    rw [if_pos h]
  · intro blob e h8 hu
    unfold wkbPointToWKT
    rw [if_neg (by omega), hu]
  · intro blob g h8 hu hnp
    unfold wkbPointToWKT
    rw [if_neg (by omega), hu]
    cases g with
    | point x y => exact absurd rfl (hnp x y)
    | lineString ps => rfl
    | polygon rs => rfl
    | multiPoint ps => rfl
    | multiLineString ls => rfl
    | multiPolygon ps => rfl
    | collection gs => rfl
  · intro blob x y h8 hu
    unfold wkbPointToWKT
    rw [if_neg (by omega), hu]

/-- Witness for C6: a 3-byte blob, a bad byte-order byte, an empty
LineString payload, and a well-formed point payload. -/
theorem C6_decode_failure_classification_witness :
    wkbPointToWKT [1, 2, 3] =
      .error "input byte slice is too short to contain a GeoPackage header and WKB data" ∧
    wkbPointToWKT [0, 0, 0, 0, 0, 0, 0, 0, 9] =
      .error ("error unmarshaling WKB: " ++ (WKBErr.badByteOrder 9).message) ∧
    wkbPointToWKT [0, 0, 0, 0, 0, 0, 0, 0, 1, 2, 0, 0, 0, 0, 0, 0, 0] =
      .error ("decoded geometry is not a Point, but a " ++ kindName (.lineString [])) ∧
    wkbPointToWKT ([0, 0, 0, 0, 0, 0, 0, 0] ++ wkbEncodePoint true 0 0) = .ok (wktMarshalPoint 0 0) :=
  ⟨C6_decode_failure_classification.1 _ (by decide),
   C6_decode_failure_classification.2.1 _ _ (by decide) rfl,
   C6_decode_failure_classification.2.2.1 _ _ (by decide) rfl (fun x y h => nomatch h),
   C6_decode_failure_classification.2.2.2.1 _ 0 0 (by decide) rfl⟩

/-- The decoded output entity of a row, when its geometry decodes. -/
def decodedPOI (r : Row) : Option POI :=
  match wkbPointToWKT r.geom with
  | .ok w => some (mkPOI r w)
  | .error _ => none

/-- Appends an already-assembled result list onto the current slice
accumulator, preserving the nil/non-nil distinction of the Go slice. -/
def glueSlice (acc : Option (List POI)) (l : List POI) : Option (List POI) :=
  match acc with
  | none => listToGoSlice l
  | some a => some (a ++ l)

/-- Gluing after one Go append is gluing the element in front. -/
theorem glueSlice_goAppend (acc : Option (List POI)) (p : POI) (l : List POI) :
    glueSlice (goAppend acc p) l = glueSlice acc (p :: l) := by
  cases acc <;> simp [glueSlice, goAppend, listToGoSlice]

/-- One step of the row loop when the row's geometry decodes. -/
theorem searchLoop_cons_ok (cats : List String) (r : Row) (rs : List Row)
    (acc : Option (List POI)) (w : String) (hw : wkbPointToWKT r.geom = .ok w) :
    searchLoop cats (r :: rs) acc =
      if cats.isEmpty || hasCategoryMatch (buildTags r.mainCategory r.alternateCategory) cats
      then searchLoop cats rs (goAppend acc (mkPOI r w))
      else searchLoop cats rs acc := by
  simp only [searchLoop]
  rw [hw]

/-- One step of the row loop when the row's geometry fails to decode: the
request is aborted with the 500-class outcome at once. -/
theorem searchLoop_cons_error (cats : List String) (r : Row) (rs : List Row)
    (acc : Option (List POI)) (e : String) (he : wkbPointToWKT r.geom = .error e) :
    searchLoop cats (r :: rs) acc = .internalError := by
  simp only [searchLoop]
  rw [he]

/-- The row loop refines decode-then-filter: when every row decodes, it
returns the decoded POIs that pass the category test, in row order. -/
theorem searchLoop_ok_of_decodes (cats : List String) (rows : List Row) :
    ∀ acc : Option (List POI), (∀ r ∈ rows, (decodedPOI r).isSome = true) →
      searchLoop cats rows acc =
        .ok (glueSlice acc
          ((rows.filterMap decodedPOI).filter
            (fun p => cats.isEmpty || hasCategoryMatch p.categories cats))) := by
  induction rows with
  | nil =>
    intro acc _
    cases acc <;> simp [searchLoop, glueSlice, listToGoSlice]
  | cons r rs ih =>
    intro acc h
    have hr : (decodedPOI r).isSome = true := h r (List.mem_cons_self r rs)
    have hrs := fun u hu => h u (List.mem_cons_of_mem r hu)
    cases hw : wkbPointToWKT r.geom with
    | error e => unfold decodedPOI at hr; rw [hw] at hr; simp at hr
    | ok w =>
      have hd : decodedPOI r = some (mkPOI r w) := by unfold decodedPOI; rw [hw]
      rw [searchLoop_cons_ok cats r rs acc w hw]
      rw [List.filterMap_cons, hd]
      simp only [List.filter_cons]
      have hcat : (mkPOI r w).categories = buildTags r.mainCategory r.alternateCategory := rfl
      cases hbool : (cats.isEmpty || hasCategoryMatch (buildTags r.mainCategory r.alternateCategory) cats) with
      | false =>
        rw [hcat, hbool]
        simp only [Bool.false_eq_true, if_false]
        exact ih acc hrs
      | true =>
        rw [hcat, hbool]
        simp only [if_true]
        rw [ih (goAppend acc (mkPOI r w)) hrs, glueSlice_goAppend]

/-- If the matched rows are some decodable prefix, then a row whose blob
fails to decode, the loop answers the 500-class outcome no matter what
follows and no matter what was already accumulated. -/
theorem searchLoop_first_error (cats : List String) (bad : Row) (rest : List Row) (e : String)
    (good : List Row) :
    ∀ acc, (∀ r ∈ good, (decodedPOI r).isSome = true) →
      wkbPointToWKT bad.geom = .error e →
      searchLoop cats (good ++ bad :: rest) acc = .internalError := by
  induction good with
  | nil =>
    intro acc _ hbad
    simp only [List.nil_append]
    exact searchLoop_cons_error cats bad rest acc e hbad
  | cons r good ih =>
    intro acc h hbad
    have hr : (decodedPOI r).isSome = true := h r (List.mem_cons_self r good)
    cases hw : wkbPointToWKT r.geom with
    | error e2 => unfold decodedPOI at hr; rw [hw] at hr; simp at hr
    | ok w =>
      rw [List.cons_append, searchLoop_cons_ok cats r _ acc w hw]
      split
      · exact ih _ (fun u hu => h u (List.mem_cons_of_mem r hu)) hbad
      · exact ih _ (fun u hu => h u (List.mem_cons_of_mem r hu)) hbad

/-- Eight arbitrary header bytes standing for the GeoPackage envelope that
`wkbPointToWKT` skips. -/
def gpHeader : List Nat := [71, 80, 0, 0, 0, 0, 0, 0]

/-- A well-formed geometry blob: the header plus a little-endian WKB point
with both coordinate bit patterns zero (the double 0.0). -/
def demoBlob : List Nat := gpHeader ++ wkbEncodePoint true 0 0

/-- The spec's end-to-end example row: lat 51.5, long -0.12, primary
category "Cafe", alternate category "Bakery", and a decodable geometry. -/
def demoRow : Row :=
  ⟨1, demoBlob, "poi-1", none, some "Cafe", some "Bakery", none, none, none, none, none,
   "overture", "rec-1", ⟨515, 1⟩, ⟨-12, 2⟩, "h3cell", ⟨0, 0⟩, ⟨0, 0⟩, "E01000001"⟩

/-- A row inside the same rectangle whose geometry blob is empty and hence
fails to decode. -/
def corruptRow : Row :=
  ⟨2, [], "poi-2", none, some "Cafe", none, none, none, none, none, none,
   "overture", "rec-2", ⟨515, 1⟩, ⟨-12, 2⟩, "h3cell", ⟨0, 0⟩, ⟨0, 0⟩, "E01000002"⟩

/-- C1, counterexample to the claim as stated: the example row carries the
tag list ["Cafe", "Bakery"] and lies inside bbox=-1,51,1,52, yet the search
with categories=cafe returns no results at all — the row is excluded, not
included, because the compiled filter set is lower-cased while matching is
exact and case-sensitive on the stored tags. -/
theorem C1_counterexample :
    buildTags demoRow.mainCategory demoRow.alternateCategory = ["Cafe", "Bakery"] ∧
    search [demoRow] "-1,51,1,52" "cafe" = .ok none :=
  ⟨by decide, by decide⟩

/-- C1 as amended: for the row at lat 51.5, lon -0.12 with primary "Cafe"
and alternate "Bakery" inside bbox=-1,51,1,52, a search with
categories=cafe excludes the row (case-sensitive exact matching against the
lower-cased filter set), a search with categories=zoo also excludes it, and
a search with no category filter includes it with tag list
["Cafe", "Bakery"]. -/
theorem C1_amended_end_to_end :
    search [demoRow] "-1,51,1,52" "cafe" = .ok none ∧
    search [demoRow] "-1,51,1,52" "zoo" = .ok none ∧
    search [demoRow] "-1,51,1,52" "" = .ok (some [mkPOI demoRow "POINT(0 0)"]) ∧
    (mkPOI demoRow "POINT(0 0)").categories = ["Cafe", "Bakery"] :=
  ⟨by decide, by decide, by decide, by decide⟩

/-- C2: whenever the rectangle and filter validate and every matched row
decodes, the search result is exactly the decoded POIs of the matched rows
for which the filter is match-all or some tag of the POI is in the filter
set, in the matched order — a filter of the decoded list, which only
removes elements and never reorders, and a discarded POI causes no error. -/
theorem C2_search_assembles_filtered_in_order :
    ∀ (table : List Row) (bboxStr catStr : String) (bbox : List GoFloat) (cats : List String),
      parseBBox bboxStr = .ok bbox →
      parseCategories catStr = .ok cats →
      (∀ r ∈ dbQuery table bbox, (decodedPOI r).isSome = true) →
      search table bboxStr catStr =
        .ok (listToGoSlice
          (((dbQuery table bbox).filterMap decodedPOI).filter
            (fun p => cats.isEmpty || hasCategoryMatch p.categories cats))) := by
  intro table bboxStr catStr bbox cats hbb hcat hdec
  unfold search
  rw [hbb, hcat]
  show searchLoop cats (dbQuery table bbox) none = _
  rw [searchLoop_ok_of_decodes cats _ none hdec]
  rfl

/-- Witness for C2 on the example table with the "cafe" filter. -/
theorem C2_search_assembles_filtered_in_order_witness :
    search [demoRow] "-1,51,1,52" "cafe" =
      .ok (listToGoSlice
        (((dbQuery [demoRow] [⟨-1, 0⟩, ⟨51, 0⟩, ⟨1, 0⟩, ⟨52, 0⟩]).filterMap decodedPOI).filter
          (fun p => ((["cafe"] : List String).isEmpty || hasCategoryMatch p.categories ["cafe"])))) :=
  C2_search_assembles_filtered_in_order [demoRow] "-1,51,1,52" "cafe"
    [⟨-1, 0⟩, ⟨51, 0⟩, ⟨1, 0⟩, ⟨52, 0⟩] ["cafe"]
    (by decide) (by decide) (by decide)

/-- C3: if any row of the matched set fails to decode, the whole request
answers the 500-class outcome — no partial results, whatever rows follow
the first failure and however many well-formed rows preceded it. -/
theorem C3_decode_failure_aborts_request :
    ∀ (table : List Row) (bboxStr catStr : String) (bbox : List GoFloat) (cats : List String)
      (good : List Row) (bad : Row) (rest : List Row) (e : String),
      parseBBox bboxStr = .ok bbox →
      parseCategories catStr = .ok cats →
      dbQuery table bbox = good ++ bad :: rest →
      (∀ r ∈ good, (decodedPOI r).isSome = true) →
      wkbPointToWKT bad.geom = .error e →
      search table bboxStr catStr = .internalError := by
  intro table bboxStr catStr bbox cats good bad rest e hbb hcat hq hgood hbad
  unfold search
  rw [hbb, hcat]
  show searchLoop cats (dbQuery table bbox) none = _
  rw [hq]
  exact searchLoop_first_error cats bad rest e good none hgood hbad

/-- Witness for C3: one well-formed row followed by a corrupt one in the
same rectangle poisons the whole response. -/
theorem C3_decode_failure_aborts_request_witness :
    search [demoRow, corruptRow] "-1,51,1,52" "" = .internalError :=
  C3_decode_failure_aborts_request [demoRow, corruptRow] "-1,51,1,52" ""
    [⟨-1, 0⟩, ⟨51, 0⟩, ⟨1, 0⟩, ⟨52, 0⟩] []
    [demoRow] corruptRow []
    "input byte slice is too short to contain a GeoPackage header and WKB data"
    (by decide) (by decide) (by decide) (by decide) (by decide)

/-- C4, counterexample to the claim as stated: a valid search matching zero
rows leaves the results slice nil, and the `results` field of the response
serializes as JSON null — not as the empty sequence the claim asserts. -/
theorem C4_counterexample :
    search [demoRow] "10,10,11,11" "" = .ok none ∧
    renderResponse (fun _ => "") none = "\x7b\"results\":null\x7d" ∧
    renderResponse (fun _ => "") none ≠ "\x7b\"results\":[]\x7d" :=
  ⟨by decide, rfl, by decide⟩

/-- C4 as amended: a valid search that matches zero rows returns a success
outcome whose results slice is the Go nil slice, so the `results` field
serializes as JSON null (encoding/json marshals a nil slice as null and the
field carries no omitempty), for any rendering of the POI objects. -/
theorem C4_amended_zero_matches_null :
    ∀ (table : List Row) (bboxStr catStr : String) (bbox : List GoFloat) (cats : List String)
      (renderItem : POI → String),
      parseBBox bboxStr = .ok bbox →
      parseCategories catStr = .ok cats →
      dbQuery table bbox = [] →
      search table bboxStr catStr = .ok none ∧
      renderResponse renderItem none = "\x7b\"results\":null\x7d" := by
  intro table bboxStr catStr bbox cats renderItem hbb hcat hq
  constructor
  · unfold search
    rw [hbb, hcat]
    show searchLoop cats (dbQuery table bbox) none = _
    rw [hq]
    rfl
  · rfl

/-- Witness for C4 as amended: a non-empty table, a rectangle matching no
row. -/
theorem C4_amended_zero_matches_null_witness :
    search [demoRow] "10,10,11,11" "" = .ok none ∧
    renderResponse (fun _ => "POI") none = "\x7b\"results\":null\x7d" :=
  C4_amended_zero_matches_null [demoRow] "10,10,11,11" ""
    [⟨10, 0⟩, ⟨10, 0⟩, ⟨11, 0⟩, ⟨11, 0⟩] [] (fun _ => "POI")
    (by decide) (by decide) (by decide)
